import Mathlib

/-!
Verification of the zen HTTP framework's dispatch core against its
natural-language specification.

The repository contains two snapshots of the router core: the root
package (`router.go`, `response.go`) and an earlier snapshot under
`pkg/zen/` (`router.go`, `context.go`, `writer.go`).  Both are embedded
here where the claims cite them.  Handlers are modelled as lists of
primitive actions (a deep embedding of the statements a handler may
perform against the `Context`): calling `Next`, calling `Quit`, writing
a status code, writing a body chunk, or recording an observable mark.
The chain engine `runChain` is the embedding of `Context.Next` from
`pkg/zen/context.go` (lines 40-51): `Next` increments the cursor and
then loops, invoking each remaining handler and incrementing again;
`Quit` sets the cursor to the chain length.  In the embedding the
cursor-past-the-end condition is the `halted` flag, and re-entering the
loop from inside a handler (the recursive `Next` call) runs the
remaining suffix of the chain.
-/

namespace Zen

/-- A primitive handler action against the per-request `Context`. -/
inductive Act where
  | callNext : Act
  | callQuit : Act
  | writeStatus : Nat → Act
  | writeBody : String → Act
  | mark : Nat → Act
deriving DecidableEq, Repr

/-- A handler is the sequence of actions it performs when invoked. -/
abbrev Handler := List Act

/-- Root-package response writer (`src/response.go`): records the
status code and a `headerWritten` flag; `WriteHeader` is a no-op once
the flag is set. -/
structure RootWriter where
  statusCode : Nat
  headerWritten : Bool
deriving DecidableEq, Repr

/-- `ResponseWriter.WriteHeader` of `src/response.go` (lines 71-79):
returns unchanged if the header was already written, otherwise records
the code and sets the flag. -/
def rootWriteHeader (code : Nat) (w : RootWriter) : RootWriter :=
  if w.headerWritten then w else { statusCode := code, headerWritten := true }

/-- `ResponseWriter.Status` of `src/response.go`: 200 when unset. -/
def rootStatus (w : RootWriter) : Nat :=
  if w.statusCode = 0 then 200 else w.statusCode

/-- Fresh root writer (`NewResponseWriter`): code 0, flag false. -/
def rootWriterInit : RootWriter := { statusCode := 0, headerWritten := false }

/-- pkg/zen response writer (`src/pkg/zen/writer.go`): records only the
status code, with no write-once flag. -/
structure ZenWriter where
  statusCode : Nat
deriving DecidableEq, Repr

/-- `ResponseWriter.WriteHeader` of `src/pkg/zen/writer.go` (lines
12-15): unconditionally overwrites the recorded status code. -/
def zenWriteHeader (code : Nat) (_w : ZenWriter) : ZenWriter :=
  { statusCode := code }

/-- `ResponseWriter.Status` of `src/pkg/zen/writer.go`: 200 when unset. -/
def zenStatus (w : ZenWriter) : Nat :=
  if w.statusCode = 0 then 200 else w.statusCode

/-- Fresh pkg/zen writer. -/
def zenWriterInit : ZenWriter := { statusCode := 0 }

/-- A sequence of `WriteHeader` calls applied in order. -/
def writeAll {W : Type} (wf : Nat → W → W) (codes : List Nat) (w : W) : W :=
  codes.foldl (fun w c => wf c w) w

/-- Per-request execution state, generic in the writer snapshot `W`.
`halted` models `Index ≥ len(Handlers)`: once true, the loops driving
the chain run no further handler.  `log` records `mark` actions in
execution order; `body` records body chunks written. -/
structure St (W : Type) where
  writer : W
  body : List String
  log : List Nat
  halted : Bool
deriving Repr

/-- Effect of one non-`callNext` action on the state; `wf` is the
writer's `WriteHeader`. -/
def applyAct {W : Type} (wf : Nat → W → W) : Act → St W → St W
  | Act.callQuit, s => { s with halted := true }
  | Act.writeStatus code, s => { s with writer := wf code s.writer }
  | Act.writeBody b, s => { s with body := s.body ++ [b] }
  | Act.mark i, s => { s with log := s.log ++ [i] }
  | Act.callNext, s => s

/-- Runs one handler's actions.  `k` is the driving loop on the chain
suffix after the current handler: `Act.callNext` re-enters it (the
recursive `Context.Next` call), after which the cursor is past the end
(`halted`); statements after the `Next` call still execute. -/
def runActs {W : Type} (wf : Nat → W → W) (k : St W → St W) :
    List Act → St W → St W
  | [], s => s
  | Act.callNext :: as, s =>
      runActs wf k as (if s.halted then s else { k s with halted := true })
  | a :: as, s => runActs wf k as (applyAct wf a s)

/-- The driving loop of `Context.Next` (`src/pkg/zen/context.go` lines
40-46), expressed over the remaining chain suffix: while the cursor is
in range (`¬ halted`), invoke the current handler, then advance. -/
def runChain {W : Type} (wf : Nat → W → W) : List Handler → St W → St W
  | [], s => s
  | h :: rest, s =>
      if s.halted then s
      else
        let s₁ := runActs wf (runChain wf rest) h s
        if s₁.halted then s₁ else runChain wf rest s₁

/-- Initial per-request state for a writer initial value. -/
def stInit {W : Type} (w : W) : St W :=
  { writer := w, body := [], log := [], halted := false }

/-! ## Path matching

Two matchers exist in the repository.  `matchPath` embeds the baseline
matcher of `src/pkg/zen/router.go` (lines 210-229): trim leading and
trailing slashes, split on `/`, require equal segment counts, compare
literal segments byte for byte, and bind `:name` segments to the
corresponding path segment unconditionally.  `rootMatchPath` embeds the
hardened matcher of `src/router.go` (lines 206-232): it splits with
`strings.FieldsFunc` on `/` and space (dropping empty segments) and
validates every bound parameter value. -/

/-- A path segment, as a character list. -/
abbrev Seg := List Char

/-- Go `strings.Trim(s, "/")`: drop leading and trailing runs of `/`. -/
def trimSlash (s : List Char) : List Char :=
  ((s.dropWhile (· = '/')).reverse.dropWhile (· = '/')).reverse

/-- Go `strings.Split(s, sep)` for a one-character separator: split at
every occurrence, keeping empty fields; the empty string yields one
empty field. -/
def splitChar (sep : Char) : List Char → List Seg
  | [] => [[]]
  | c :: cs =>
      let rest := splitChar sep cs
      if c = sep then [] :: rest
      else
        match rest with
        | [] => [[c]]
        | r :: rs => (c :: r) :: rs

/-- Go `strings.Split(s, "/")`. -/
def splitSlash : List Char → List Seg := splitChar '/'

/-- Segments of a pattern or path in the pkg/zen matcher:
`strings.Split(strings.Trim(s, "/"), "/")`. -/
def segsOf (s : String) : List Seg := splitSlash (trimSlash s.data)

/-- Go map insertion `params[name] = value`: replace the binding if the
key is present, otherwise append it. -/
def upsert (k v : Seg) : List (Seg × Seg) → List (Seg × Seg)
  | [] => [(k, v)]
  | (k₀, v₀) :: rest =>
      if k₀ = k then (k, v) :: rest else (k₀, v₀) :: upsert k v rest

/-- Go map lookup `params[name]`. -/
def getVal (k : Seg) : List (Seg × Seg) → Option Seg
  | [] => none
  | (k₀, v₀) :: rest => if k₀ = k then some v₀ else getVal k rest

/-- Whether a pattern segment is a `:name` parameter binder
(`strings.HasPrefix(part, ":")`). -/
def isParamSeg (p : Seg) : Bool :=
  match p with
  | ':' :: _ => true
  | _ => false

/-- The parameter name of a binder segment (`strings.TrimPrefix(part, ":")`). -/
def paramName (p : Seg) : Seg := p.drop 1

/-- The matching loop of the pkg/zen `matchPath`, iterating the two
segment lists in step and accumulating parameter bindings. -/
def matchLoop : List Seg → List Seg → List (Seg × Seg) → Option (List (Seg × Seg))
  | [], [], acc => some acc
  | p :: ps, q :: qs, acc =>
      if isParamSeg p then matchLoop ps qs (upsert (paramName p) q acc)
      else if p = q then matchLoop ps qs acc
      else none
  | _, _, _ => none

/-- `matchPath` of `src/pkg/zen/router.go` (lines 210-229): `none`
models the `(nil, false)` result, `some params` the `(params, true)`
result. -/
def matchPath (pattern path : String) : Option (List (Seg × Seg)) :=
  let ps := segsOf pattern
  let qs := segsOf path
  if ps.length = qs.length then matchLoop ps qs [] else none

/-- Go `strings.FieldsFunc(s, f)` for `f c := c = '/' ∨ c = ' '`:
split on separator runs, dropping empty fields. -/
def fieldsSlashSpace (s : List Char) : List Seg :=
  (splitSlash (s.map fun c => if c = ' ' then '/' else c)).filter (· ≠ [])

/-- `startsWith needle hay`: `hay` begins with `needle`. -/
def listStartsWith : List Char → List Char → Bool
  | [], _ => true
  | _ :: _, [] => false
  | a :: as, b :: bs => a = b && listStartsWith as bs

/-- Go `strings.Contains(hay, needle)`: some suffix of `hay` starts
with `needle`. -/
def hasSub (needle : List Char) : List Char → Bool
  | [] => listStartsWith needle []
  | c :: cs => listStartsWith needle (c :: cs) || hasSub needle cs

/-- The dangerous substrings of the root router's default
`ValidationConfig` (`src/router.go` lines 45-52). -/
def dangerousPatterns : List (List Char) :=
  [['.', '.', '/'], ['.', '.', '\\'], ['<'], ['>'], [';'],
   [Char.ofNat 39], [Char.ofNat 34], [Char.ofNat 0], ['\n'], ['\r']]

/-- A character accepted by the allow-list pattern `^[a-zA-Z0-9\-_]+$`. -/
def allowedChar (c : Char) : Bool :=
  c.isAlpha || c.isDigit || c = '-' || c = '_'

/-- `Router.validatePathParam` of `src/router.go` (lines 259-275):
reject empty values, values over 256 characters, values containing a
dangerous substring, and values with a character outside the
allow-list. -/
def validatePathParam (v : Seg) : Bool :=
  if v = [] then false
  else if 256 < v.length then false
  else if dangerousPatterns.any (fun pat => hasSub pat v) then false
  else v.all allowedChar

/-- The matching loop of the root `Router.matchPath`, validating each
bound parameter value; a failing validation makes the whole route not
match. -/
def rootMatchLoop : List Seg → List Seg → List (Seg × Seg) → Option (List (Seg × Seg))
  | [], [], acc => some acc
  | p :: ps, q :: qs, acc =>
      if isParamSeg p then
        if validatePathParam q then rootMatchLoop ps qs (upsert (paramName p) q acc)
        else none
      else if p = q then rootMatchLoop ps qs acc
      else none
  | _, _, _ => none

/-- `Router.matchPath` of `src/router.go` (lines 206-232): splits both
strings with `FieldsFunc` on `/` and space, then matches with
parameter validation. -/
def rootMatchPath (pattern path : String) : Option (List (Seg × Seg)) :=
  let ps := fieldsSlashSpace pattern.data
  let qs := fieldsSlashSpace path.data
  if ps.length = qs.length then rootMatchLoop ps qs [] else none

/-! ## Handler-chain composition

`RouterGroup.combineHandlers` (identical in `src/router.go` lines
110-123 and `src/pkg/zen/router.go` lines 108-121) allocates a slice of
the combined size and copies the router's global middleware, then the
group's middleware, then the route handlers, in that order; the net
result is list concatenation.  Dispatch differs between the snapshots:
the root `Router.handle` installs the stored chain unchanged, while the
pkg/zen `Router.handle` (lines 177-181) copies the current global
middleware list in front of the stored chain again. -/

/-- `RouterGroup.combineHandlers`: global middleware, then group
middleware, then the route handlers. -/
def combineHandlers {α : Type} (global groupMw handlers : List α) : List α :=
  global ++ groupMw ++ handlers

/-- The chain installed by the pkg/zen `Router.handle` on a match
(lines 177-181): the current global middleware list prepended to the
stored chain. -/
def zenDispatchChain {α : Type} (global stored : List α) : List α :=
  global ++ stored

/-- The chain installed by the root `Router.handle` on a match
(`c.Handlers = handlers`): exactly the stored chain. -/
def rootDispatchChain {α : Type} (stored : List α) : List α := stored

/-! ## Dispatch (`Router.handle`, `Router.handleOptions`)

Route tables are modelled as association lists from pattern to stored
chain; Go map iteration order is unspecified, so the list order stands
for one arbitrary iteration order.  `ctxText` is `Context.Text`
(write the status code via the writer, then write the body);
`ctxJSON` is `Context.JSON` (same status write, JSON-encoded body). -/

/-- `Context.Text`: write the status code through the writer's
`WriteHeader`, then append the body chunk. -/
def ctxText {W : Type} (wf : Nat → W → W) (code : Nat) (b : String) (s : St W) : St W :=
  { s with writer := wf code s.writer, body := s.body ++ [b] }

/-- `Context.JSON`: write the status code through the writer's
`WriteHeader`, then append the encoded body chunk. -/
def ctxJSON {W : Type} (wf : Nat → W → W) (code : Nat) (b : String) (s : St W) : St W :=
  { s with writer := wf code s.writer, body := s.body ++ [b] }

/-- First pattern in table order whose match succeeds, with its
parameters and stored value. -/
def findRoute {α : Type} (m : String → String → Option (List (Seg × Seg))) :
    List (String × α) → String → Option (List (Seg × Seg) × α)
  | [], _ => none
  | (pat, v) :: rest, path =>
      match m pat path with
      | some ps => some (ps, v)
      | none => findRoute m rest path

/-- `Router.handle` of `src/pkg/zen/router.go` (lines 173-199),
non-OPTIONS path, for the table of the request's method: on a match,
run the current global middleware prepended to the stored chain; on no
match with global middleware present, run the global middleware and
then write 404 only if `Writer.Status()` returns 0; otherwise write
404 directly. -/
def zenHandle (routes : List (String × List Handler)) (global : List Handler)
    (path : String) (s : St ZenWriter) : St ZenWriter :=
  match findRoute matchPath routes path with
  | some (_, stored) => runChain zenWriteHeader (zenDispatchChain global stored) s
  | none =>
      if 0 < global.length then
        let s₁ := runChain zenWriteHeader global s
        if zenStatus s₁.writer = 0 then ctxText zenWriteHeader 404 "404 NOT FOUND" s₁
        else s₁
      else ctxText zenWriteHeader 404 "404 NOT FOUND" s

/-- `Router.handle` of `src/router.go` (lines 168-196), non-OPTIONS
path: on a match, run exactly the stored chain; on no match with
global middleware present, call `writeNotFound` (status 404 plus the
literal body) and only then run the global middleware; with no global
middleware, `writeNotFound` directly. -/
def rootHandle (routes : List (String × List Handler)) (global : List Handler)
    (path : String) (s : St RootWriter) : St RootWriter :=
  match findRoute rootMatchPath routes path with
  | some (_, stored) => runChain rootWriteHeader (rootDispatchChain stored) s
  | none =>
      if 0 < global.length then
        runChain rootWriteHeader global (ctxText rootWriteHeader 404 "404 NOT FOUND" s)
      else ctxText rootWriteHeader 404 "404 NOT FOUND" s

/-- `Router.handleOptions` of `src/router.go` (lines 234-257): on an
OPTIONS-table match, run the global middleware prepended to the stored
chain; on no match with global middleware present, run it and write
204 only if `Writer.Status()` returns 0; with no global middleware,
`c.JSON(204, "")`. -/
def rootHandleOptions (optRoutes : List (String × List Handler)) (global : List Handler)
    (path : String) (s : St RootWriter) : St RootWriter :=
  match findRoute rootMatchPath optRoutes path with
  | some (_, stored) => runChain rootWriteHeader (zenDispatchChain global stored) s
  | none =>
      if 0 < global.length then
        let s₁ := runChain rootWriteHeader global s
        if rootStatus s₁.writer = 0 then ctxText rootWriteHeader 204 "" s₁
        else s₁
      else ctxJSON rootWriteHeader 204 "" s

/-- `Router.handleOptions` of `src/pkg/zen/router.go` (lines 47-62):
run a copy of the global middleware (the OPTIONS route table is never
consulted), then write 204 only if `Writer.Status()` returns 0. -/
def zenHandleOptions (global : List Handler) (s : St ZenWriter) : St ZenWriter :=
  let s₁ := runChain zenWriteHeader global s
  if zenStatus s₁.writer = 0 then ctxText zenWriteHeader 204 "" s₁
  else s₁

/-! ## Rate limiter (`src/unnamed/part_013`)

Per-key state is a request count and window-start time; times and
durations are modelled as integer nanoseconds (`time.Duration`).  The
strategy functions map the key's current entry (`none` for an unseen
key) and the current time to the admission decision and the entry
stored back.

In `isSlidingWindowAllowed` the Go code computes
`int(float64(entry.count) * (float64(overlap) / float64(window)))` in
IEEE-754 binary64 arithmetic.  Every binary64 operation involved
(conversion from integer, division, multiplication) is correctly
rounded: it yields the exact rational result rounded to the nearest
value with a 53-bit significand, ties to even.  The computation is
therefore modelled exactly by dyadic values `m · 2^e` (`Dyadic`) with
`roundPosFrac` performing the 53-bit round-to-nearest-even of a
positive integer fraction, and a final truncation toward zero (Go's
`int(...)` conversion).  The limiter's counts and nanosecond durations
lie far inside the normal finite binary64 range, which is the range
the model covers (no subnormals, no overflow, no NaN; rounding is
symmetric in the sign, so signs are factored out). -/

/-- `⌊log₂ n⌋` by fuelled halving, so that concrete evaluations reduce
in the kernel (`log2Aux fuel n` computes `⌊log₂ n⌋` whenever
`fuel ≥ log₂ n`, and `log₂ n ≤ n` always holds). -/
def log2Aux : Nat → Nat → Nat
  | 0, _ => 0
  | fuel + 1, n => if n ≤ 1 then 0 else log2Aux fuel (n / 2) + 1

/-- `⌊log₂ n⌋` for `n > 0` (and 0 at 0). -/
def natLog2 (n : Nat) : Nat := log2Aux n n

/-- A non-negative binary64 value, exactly, as `m · 2^e`. -/
structure Dyadic where
  m : Nat
  e : Int
deriving Repr, DecidableEq

/-- The value `m · 2^e` as a positive integer fraction. -/
def dyadicFrac (x : Dyadic) : Nat × Nat :=
  if 0 ≤ x.e then (x.m * 2 ^ x.e.toNat, 1) else (x.m, 2 ^ (-x.e).toNat)

/-- Rounds the fraction `p / q` (`p, q > 0`) to 53 significant bits,
round to nearest, ties to even — the binary64 rounding of a positive
real in the normal range.  With `2^a ≤ p < 2^(a+1)` and
`2^b ≤ q < 2^(b+1)`, the exponent `l = ⌊log₂ (p/q)⌋` is `a - b` when
`p·2^b ≥ q·2^a` and `a - b - 1` otherwise; the value is scaled by
`2^(52 - l)` into `[2^52, 2^53)` and rounded to an integer
significand. -/
def roundPosFrac (p q : Nat) : Dyadic :=
  let a := natLog2 p
  let b := natLog2 q
  let l : Int := if p * 2 ^ b < q * 2 ^ a then (a : Int) - b - 1 else (a : Int) - b
  let e : Int := l - 52
  let pp : Nat := if 0 ≤ e then p else p * 2 ^ (-e).toNat
  let qq : Nat := if 0 ≤ e then q * 2 ^ e.toNat else q
  let n₀ := pp / qq
  let rem := pp % qq
  let n : Nat :=
    if 2 * rem < qq then n₀
    else if qq < 2 * rem then n₀ + 1
    else if n₀ % 2 = 0 then n₀ else n₀ + 1
  { m := n, e := e }

/-- `float64(n)` for a natural number: exact conversion followed by
binary64 rounding (exact for `n < 2^53`, correctly rounded above). -/
def fl64OfNat (n : Nat) : Dyadic :=
  if n = 0 then { m := 0, e := 0 } else roundPosFrac n 1

/-- Binary64 division of non-negative values: the exact quotient,
correctly rounded.  (Division by zero is outside the modelled range.) -/
def fl64Div (x y : Dyadic) : Dyadic :=
  let fx := dyadicFrac x
  let fy := dyadicFrac y
  if fx.1 = 0 ∨ fy.1 = 0 then { m := 0, e := 0 }
  else roundPosFrac (fx.1 * fy.2) (fx.2 * fy.1)

/-- Binary64 multiplication of non-negative values: the exact product,
correctly rounded. -/
def fl64Mul (x y : Dyadic) : Dyadic :=
  let fx := dyadicFrac x
  let fy := dyadicFrac y
  if fx.1 * fy.1 = 0 then { m := 0, e := 0 }
  else roundPosFrac (fx.1 * fy.1) (fx.2 * fy.2)

/-- Go's `int(f)` conversion of a non-negative binary64 value:
truncation toward zero. -/
def dyadicTrunc (x : Dyadic) : Nat :=
  let f := dyadicFrac x
  f.1 / f.2

/-- The weighted previous count of the sliding-window rollover,
computed exactly as the Go source does in binary64:
`int(float64(count) * (float64(overlap) / float64(window)))` — convert
each integer, divide, multiply, each operation correctly rounded, then
truncate toward zero.  Signs are factored out of the magnitudes
(binary64 rounding and Go's truncation are both symmetric in the
sign); in every state the limiter reaches, all three arguments are
non-negative. -/
def goFloat64Seed (count overlap window : Int) : Int :=
  let mag : Nat :=
    dyadicTrunc (fl64Mul (fl64OfNat count.natAbs)
      (fl64Div (fl64OfNat overlap.natAbs) (fl64OfNat window.natAbs)))
  let negs : Nat := (if count < 0 then 1 else 0) + (if overlap < 0 then 1 else 0)
    + (if window < 0 then 1 else 0)
  if negs % 2 = 1 then -(mag : Int) else (mag : Int)

structure RLConfig where
  limit : Int
  burst : Int
  window : Int
deriving Repr

structure WindowEntry where
  count : Int
  start : Int
deriving Repr, DecidableEq

/-- `RateLimiter.isIPBasedAllowed` (`src/unnamed/part_013` lines
113-135): first sight stores count 1 and allows; an expired window
(`now - startTime > window`) resets to count 1 and allows; otherwise
allow, incrementing, exactly when `count < limit + burst`. -/
def isIPBasedAllowed (cfg : RLConfig) (st : Option WindowEntry) (now : Int) :
    Bool × WindowEntry :=
  match st with
  | none => (true, { count := 1, start := now })
  | some e =>
      if cfg.window < now - e.start then (true, { count := 1, start := now })
      else if e.count < cfg.limit + cfg.burst then
        (true, { count := e.count + 1, start := e.start })
      else (false, e)

/-- `RateLimiter.isSlidingWindowAllowed` (`src/unnamed/part_013` lines
138-171): on rollover (`now - startTime > window`), weight the
previous count by the overlap with the previous window (clamped below
at 0) in binary64 arithmetic, seed the new count as the truncated
product plus one, and allow exactly when the seeded count is under
`limit + burst`; within a still-open window, behave like the
fixed-window strategy. -/
def isSlidingWindowAllowed (cfg : RLConfig) (st : Option WindowEntry) (now : Int) :
    Bool × WindowEntry :=
  match st with
  | none => (true, { count := 1, start := now })
  | some e =>
      let d := now - e.start
      if cfg.window < d then
        let overlap₀ := cfg.window - (d - cfg.window)
        let overlap := if overlap₀ < 0 then 0 else overlap₀
        let prev : Int := goFloat64Seed e.count overlap cfg.window
        let newCount := prev + 1
        (decide (newCount < cfg.limit + cfg.burst), { count := newCount, start := now })
      else if e.count < cfg.limit + cfg.burst then
        (true, { count := e.count + 1, start := e.start })
      else (false, e)

/-- Runs a sequence of calls at the given times for one key, threading
the stored entry, and collects the admission decisions. -/
def runCalls (step : Option WindowEntry → Int → Bool × WindowEntry) :
    List Int → Option WindowEntry → List Bool × Option WindowEntry
  | [], st => ([], st)
  | t :: ts, st =>
      let r := step st t
      let rest := runCalls step ts (some r.2)
      (r.1 :: rest.1, rest.2)

/-! ## Route groups (`RouterGroup.GroupRoutes`)

`goCopy dst src` is Go's `copy(dst, src)`: it fills `dst` with the
first `min |dst| |src|` elements of `src`, leaving the rest of `dst`
unchanged.  The root `GroupRoutes` (`src/router.go` lines 83-93)
allocates the child's middleware slice with `make([]HandlerFunc, 0,
len(parent))` — length zero — and then copies; the pkg/zen variant
(`src/pkg/zen/router.go` lines 81-91) allocates with length
`len(parent)`.  Middleware values are modelled as numeric handler
identifiers, with 0 as the zero value of a freshly made slot. -/

def goCopy {α : Type} (dst src : List α) : List α :=
  src.take (min dst.length src.length) ++ dst.drop (min dst.length src.length)

structure RGroup where
  prefixStr : String
  middlewares : List Nat
deriving Repr, DecidableEq

/-- Root `RouterGroup.GroupRoutes`: child prefix is parent prefix plus
the new prefix; the child's middleware slice is made with length 0 and
capacity `len(parent.middlewares)` before `copy`. -/
def rootGroupRoutes (g : RGroup) (p : String) : RGroup :=
  { prefixStr := g.prefixStr ++ p,
    middlewares := goCopy [] g.middlewares }

/-- pkg/zen `RouterGroup.GroupRoutes`: the child's middleware slice is
made with length `len(parent.middlewares)` before `copy`. -/
def zenGroupRoutes (g : RGroup) (p : String) : RGroup :=
  { prefixStr := g.prefixStr ++ p,
    middlewares := goCopy (List.replicate g.middlewares.length 0) g.middlewares }

/-- `RouterGroup.Apply` (`src/router.go` lines 71-73): append to the
group's own middleware list. -/
def groupApply (g : RGroup) (mws : List Nat) : RGroup :=
  { g with middlewares := g.middlewares ++ mws }

/-! ## Auth middleware (`src/unnamed/part_016`)

`getToken` extracts the token according to the `"source:name"` lookup
configuration; token validation itself is delegated to the external
JWT library and is modelled as an oracle `validate : String → Bool`.
The handler produced by `AuthWithConfig` (lines 233-260), on a
non-skipped path: on extraction or validation failure, invoke the
unauthorized handler (by default `c.JSON(401, error body)`) and
return — with no `Next` and no `Quit`; on success, attach claims and
return. -/

structure Request where
  path : String
  headers : List (String × String)
  query : List (String × String)
  cookies : List (String × String)
deriving Repr

/-- `http.Header.Get`-style lookup returning the empty string when the
key is absent. -/
def headerGet (k : String) (hs : List (String × String)) : String :=
  match hs.find? (fun kv => kv.1 == k) with
  | some kv => kv.2
  | none => ""

structure AuthCfg where
  tokenLookup : String
  tokenHeadName : String
  skipPaths : List String
deriving Repr

/-- `DefaultAuthConfig` (`src/unnamed/part_016` lines 193-206),
control-flow fields only. -/
def defaultAuthCfg : AuthCfg :=
  { tokenLookup := "header:Authorization",
    tokenHeadName := "Bearer",
    skipPaths := [] }

inductive AuthErr where
  | missingToken
  | invalidToken
  | badLookupConfig
deriving DecidableEq, Repr

/-- `getToken` (`src/unnamed/part_016` lines 263-294): split the
lookup string on `:` and extract from the header (with the
scheme-prefix check), the query, or a cookie. -/
def getToken (req : Request) (cfg : AuthCfg) : Except AuthErr String :=
  let parts := (splitChar ':' cfg.tokenLookup.data).map fun l => String.mk l
  let src := parts.getD 0 ""
  let name := parts.getD 1 ""
  if src = "header" then
    let auth := headerGet name req.headers
    if auth = "" then .error .missingToken
    else if cfg.tokenHeadName ≠ "" then
      if listStartsWith (cfg.tokenHeadName.data ++ [' ']) auth.data then
        .ok (String.mk (auth.data.drop (cfg.tokenHeadName.data.length + 1)))
      else .error .invalidToken
    else .ok auth
  else if src = "query" then
    let tok := headerGet name req.query
    if tok = "" then .error .missingToken else .ok tok
  else if src = "cookie" then
    match req.cookies.find? (fun kv => kv.1 == name) with
    | some kv => .ok kv.2
    | none => .error .missingToken
  else .error .badLookupConfig

/-- The default unauthorized handler's effect: `c.JSON(401, error
body)` — a status write followed by a body write, with no `Next` and
no `Quit`. -/
def unauthorizedActs : Handler :=
  [Act.writeStatus 401, Act.writeBody "auth error json"]

/-- The handler returned by `AuthWithConfig` for a given request, as
its action sequence: skip-listed paths call `Next` and return; a
failed extraction or validation runs the unauthorized handler and
returns; success attaches claims and returns.  In no branch other than
the skip is `Next` called, and `Quit` is never called. -/
def authHandlerActs (cfg : AuthCfg) (req : Request) (validate : String → Bool) : Handler :=
  if cfg.skipPaths.contains req.path then [Act.callNext]
  else
    match getToken req cfg with
    | .error _ => unauthorizedActs
    | .ok tok => if validate tok then [] else unauthorizedActs

/-! # Theorems -/

/-! ## Chain-engine lemmas -/

/-- A chain of handlers that only record marks runs every handler in
order: the driving loop proceeds to the next handler whether or not
the current one called `Next`. -/
theorem runChain_marks_append {W : Type} (wf : Nat → W → W) (ids : List Nat)
    (rest : List Handler) (s : St W) (h : s.halted = false) :
    runChain wf (ids.map (fun i => [Act.mark i]) ++ rest) s
      = runChain wf rest { s with log := s.log ++ ids } := by
  induction ids generalizing s with
  | nil => simp
  | cons i ids ih =>
      simp only [List.map_cons, List.cons_append, runChain, h, Bool.false_eq_true,
        if_false, runActs, applyAct, List.append_eq]
      rw [ih { writer := s.writer, body := s.body, log := s.log ++ [i], halted := false } rfl]
      simp

/-- Special case: a mark-only chain appends exactly its marks. -/
theorem runChain_marks {W : Type} (wf : Nat → W → W) (ids : List Nat)
    (s : St W) (h : s.halted = false) :
    runChain wf (ids.map (fun i => [Act.mark i])) s = { s with log := s.log ++ ids } := by
  have := runChain_marks_append wf ids [] s h
  simpa [runChain] using this

/-- A handler that calls `Quit` stops the chain: handlers after it do
not run. -/
theorem runChain_quit_stops {W : Type} (wf : Nat → W → W) (ids₁ ids₂ : List Nat)
    (j : Nat) (s : St W) (h : s.halted = false) :
    runChain wf
        (ids₁.map (fun i => [Act.mark i])
          ++ ([Act.mark j, Act.callQuit] :: ids₂.map (fun i => [Act.mark i]))) s
      = { s with log := s.log ++ ids₁ ++ [j], halted := true } := by
  rw [runChain_marks_append wf ids₁ _ s h]
  simp [runChain, runActs, applyAct, h, List.append_assoc]

/-! ## C1 — handler-chain composition at dispatch -/

/-- C1 counterexample: with one global middleware registered before a
route is added through a group, the pkg/zen `Router.handle` executes a
chain in which that middleware appears twice — the stored chain
already contains it and dispatch prepends the global list again — so
the dispatched chain is not "each handler exactly once". -/
theorem C1_counterexample :
    zenDispatchChain [10] (combineHandlers [10] [] [20]) = [10, 10, 20]
    ∧ ¬ (zenDispatchChain [10] (combineHandlers [10] [] [20])).Nodup := by
  constructor
  · rfl
  · decide

/-- C1 amended: the chain stored at registration is exactly global
middleware ++ group middleware ++ route handler, in order; the root
`Router.handle` dispatches exactly that stored chain (and executes its
handlers in that order), while the pkg/zen `Router.handle` prepends
the global middleware list a second time, so its dispatched chain
differs from the stored one whenever global middleware exists. -/
theorem C1_amended_chain_composition (global groupMw : List Nat) (h : Nat) :
    combineHandlers global groupMw [h] = global ++ groupMw ++ [h]
    ∧ rootDispatchChain (combineHandlers global groupMw [h]) = global ++ groupMw ++ [h]
    ∧ zenDispatchChain global (combineHandlers global groupMw [h])
        = global ++ (global ++ groupMw ++ [h])
    ∧ (runChain rootWriteHeader
          ((global ++ groupMw ++ [h]).map (fun i => [Act.mark i]))
          (stInit rootWriterInit)).log = global ++ groupMw ++ [h]
    ∧ (global ≠ [] →
        zenDispatchChain global (combineHandlers global groupMw [h])
          ≠ rootDispatchChain (combineHandlers global groupMw [h])) := by
  refine ⟨rfl, rfl, rfl, ?_, ?_⟩
  · rw [runChain_marks rootWriteHeader _ _ rfl]
    simp [stInit]
  · intro hg heq
    have hlen := congrArg List.length heq
    simp [zenDispatchChain, rootDispatchChain, combineHandlers] at hlen
    exact hg hlen

/-- Witness for `C1_amended_chain_composition` at a concrete chain. -/
theorem C1_amended_chain_composition_witness :
    ([10] : List Nat) ≠ []
    ∧ zenDispatchChain [10] (combineHandlers [10] [11] [12])
        ≠ rootDispatchChain (combineHandlers [10] [11] [12]) :=
  ⟨by decide, (C1_amended_chain_composition [10] [11] 12).2.2.2.2 (by decide)⟩

/-! ## C2 — "not calling Next stops the chain" -/

/-- C2 counterexample: handler 0 records its mark and returns without
ever calling `Next`, yet handler 1 still executes — the loop inside
the outermost `Next` call advances past a handler that did not call
`Next` (this is also what the repository's own `TestContext_Next`
asserts). -/
theorem C2_counterexample :
    Act.callNext ∉ ([Act.mark 0] : List Act)
    ∧ (runChain rootWriteHeader [[Act.mark 0], [Act.mark 1]] (stInit rootWriterInit)).log
        = [0, 1] := by
  decide

/-- C2 amended: a handler that returns without calling `Next` does not
stop the chain — the driving loop proceeds to the next handler, so a
chain of handlers none of which calls `Next` (or `Quit`) still
executes every handler in order; the chain is cut short only by
`Quit`, after which no later handler runs. -/
theorem C2_amended_no_implicit_stop {W : Type} (wf : Nat → W → W)
    (ids ids₂ : List Nat) (j : Nat) (s : St W) (h : s.halted = false) :
    runChain wf (ids.map (fun i => [Act.mark i])) s = { s with log := s.log ++ ids }
    ∧ runChain wf
        (ids.map (fun i => [Act.mark i])
          ++ ([Act.mark j, Act.callQuit] :: ids₂.map (fun i => [Act.mark i]))) s
        = { s with log := s.log ++ ids ++ [j], halted := true } :=
  ⟨runChain_marks wf ids s h, runChain_quit_stops wf ids ids₂ j s h⟩

/-- Witness for `C2_amended_no_implicit_stop` on a concrete chain. -/
theorem C2_amended_no_implicit_stop_witness :
    (stInit rootWriterInit).halted = false
    ∧ runChain rootWriteHeader ([0].map (fun i => [Act.mark i])) (stInit rootWriterInit)
        = { stInit rootWriterInit with log := (stInit rootWriterInit).log ++ [0] } :=
  ⟨rfl, (C2_amended_no_implicit_stop rootWriteHeader [0] [2] 1 (stInit rootWriterInit) rfl).1⟩

/-! ## C3 — write-once response status -/

/-- C3 counterexample: the pkg/zen `ResponseWriter.WriteHeader` has no
write-once guard; after writing 200 and then 404, the recorded status
is 404 — the second write is not dropped. -/
theorem C3_counterexample :
    writeAll zenWriteHeader [200, 404] zenWriterInit = { statusCode := 404 }
    ∧ (404 : Nat) ≠ 200 := by
  decide

/-- Once the root writer's header is written, further writes are
no-ops. -/
theorem writeAll_headerWritten (codes : List Nat) (w : RootWriter)
    (h : w.headerWritten = true) : writeAll rootWriteHeader codes w = w := by
  induction codes with
  | nil => rfl
  | cons c cs ih => simp [writeAll, rootWriteHeader, h] at ih ⊢; simpa [h] using ih

/-- C3 amended: the write-once invariant holds for the root
`ResponseWriter` (`src/response.go`): for any sequence of `WriteHeader`
calls on a fresh writer, the first status code written is the recorded
one and every subsequent call is silently dropped.  The pkg/zen
snapshot's writer records the last write instead. -/
theorem C3_amended_write_once (first : Nat) (rest : List Nat) :
    writeAll rootWriteHeader (first :: rest) rootWriterInit
      = { statusCode := first, headerWritten := true } := by
  have h1 : rootWriteHeader first rootWriterInit
      = { statusCode := first, headerWritten := true } := rfl
  calc writeAll rootWriteHeader (first :: rest) rootWriterInit
      = writeAll rootWriteHeader rest (rootWriteHeader first rootWriterInit) := rfl
    _ = { statusCode := first, headerWritten := true } := by
        rw [h1]; exact writeAll_headerWritten rest _ rfl

/-! ## C7 — fixed-window rate limiting -/

/-- C7: the fixed-window strategy allows and initialises an unseen
key; resets and allows after the window has expired; otherwise allows,
incrementing, exactly when `count < limit + burst`; and with limit 2,
burst 1, window 10, calls at times 0,0,0,0 are allowed, allowed,
allowed, denied, and a call at time 11 (a full window later) is
allowed again. -/
theorem C7_fixed_window (cfg : RLConfig) (e : WindowEntry) (now : Int) :
    isIPBasedAllowed cfg none now = (true, { count := 1, start := now })
    ∧ (cfg.window < now - e.start →
        isIPBasedAllowed cfg (some e) now = (true, { count := 1, start := now }))
    ∧ (¬ cfg.window < now - e.start →
        ((isIPBasedAllowed cfg (some e) now).1 = true ↔ e.count < cfg.limit + cfg.burst))
    ∧ (¬ cfg.window < now - e.start → e.count < cfg.limit + cfg.burst →
        isIPBasedAllowed cfg (some e) now = (true, { count := e.count + 1, start := e.start }))
    ∧ (¬ cfg.window < now - e.start → ¬ e.count < cfg.limit + cfg.burst →
        isIPBasedAllowed cfg (some e) now = (false, e))
    ∧ (runCalls (isIPBasedAllowed { limit := 2, burst := 1, window := 10 })
          [0, 0, 0, 0, 11] none).1 = [true, true, true, false, true] := by
  refine ⟨rfl, ?_, ?_, ?_, ?_, by decide⟩
  · intro hw; simp [isIPBasedAllowed, hw]
  · intro hw
    by_cases hc : e.count < cfg.limit + cfg.burst <;>
      simp [isIPBasedAllowed, hw, hc]
  · intro hw hc; simp [isIPBasedAllowed, hw, hc]
  · intro hw hc; simp [isIPBasedAllowed, hw, hc]

/-- Witness for `C7_fixed_window`: a second call within the window at
count 1 is allowed and increments. -/
theorem C7_fixed_window_witness :
    (¬ (10 : Int) < 5 - 0) ∧ ((1 : Int) < 2 + 1)
    ∧ isIPBasedAllowed { limit := 2, burst := 1, window := 10 }
        (some { count := 1, start := 0 }) 5 = (true, { count := 1 + 1, start := 0 }) :=
  ⟨by decide, by decide,
    (C7_fixed_window { limit := 2, burst := 1, window := 10 }
      { count := 1, start := 0 } 5).2.2.2.1 (by decide) (by decide)⟩

/-! ## C4 — path matching -/

/-- Upserting one key does not disturb lookups of other keys. -/
theorem getVal_upsert_ne (w k v : Seg) (l : List (Seg × Seg)) (h : ¬ k = w) :
    getVal w (upsert k v l) = getVal w l := by
  induction l with
  | nil => simp [upsert, getVal, h]
  | cons kv l ih =>
      obtain ⟨k₀, v₀⟩ := kv
      by_cases h0 : k₀ = k
      · subst h0; simp [upsert, getVal, h]
      · simp [upsert, h0, getVal, ih]

/-- Lookup after upserting the same key yields the new value. -/
theorem getVal_upsert_same (k v : Seg) (l : List (Seg × Seg)) :
    getVal k (upsert k v l) = some v := by
  induction l with
  | nil => simp [upsert, getVal]
  | cons kv l ih =>
      obtain ⟨k₀, v₀⟩ := kv
      by_cases h0 : k₀ = k
      · simp [upsert, h0, getVal]
      · simp [upsert, h0, getVal, ih]

/-- The matching loop succeeds exactly when the two segment lists pair
up with every non-parameter pattern segment equal to its path
segment. -/
theorem matchLoop_isSome_iff (ps : List Seg) :
    ∀ (qs : List Seg) (acc : List (Seg × Seg)),
      (matchLoop ps qs acc).isSome ↔
        List.Forall₂ (fun p q => isParamSeg p = true ∨ p = q) ps qs := by
  induction ps with
  | nil =>
      intro qs acc
      cases qs <;> simp [matchLoop]
  | cons p ps ih =>
      intro qs acc
      cases qs with
      | nil => simp [matchLoop]
      | cons q qs =>
          cases hp : isParamSeg p with
          | true => simp [matchLoop, hp, ih, List.forall₂_cons]
          | false =>
              by_cases hq : p = q
              · subst hq; simp [matchLoop, hp, ih, List.forall₂_cons]
              · simp [matchLoop, hp, hq, List.forall₂_cons]

/-- A key bound by no parameter segment of the remaining pattern is
untouched by the rest of the matching loop. -/
theorem matchLoop_getVal_preserved (ps : List Seg) :
    ∀ (qs : List Seg) (acc m : List (Seg × Seg)), matchLoop ps qs acc = some m →
    ∀ k : Seg,
      (∀ (j : ℕ) (hj : j < ps.length),
          isParamSeg (ps.get ⟨j, hj⟩) = true → ¬ paramName (ps.get ⟨j, hj⟩) = k) →
      getVal k m = getVal k acc := by
  induction ps with
  | nil =>
      intro qs acc m hm k _
      cases qs with
      | nil => simp [matchLoop] at hm; rw [hm]
      | cons q qs => simp [matchLoop] at hm
  | cons p ps ih =>
      intro qs acc m hm k hnot
      cases qs with
      | nil => simp [matchLoop] at hm
      | cons q qs =>
          cases hp : isParamSeg p with
          | true =>
              simp only [matchLoop, hp, if_true] at hm
              have h0 : ¬ paramName p = k := hnot 0 (Nat.succ_pos _) hp
              rw [ih qs _ m hm k
                  (fun j hj hpj => hnot (j + 1) (Nat.succ_lt_succ hj) hpj)]
              exact getVal_upsert_ne k _ q acc h0
          | false =>
              by_cases hq : p = q
              · subst hq
                simp only [matchLoop, hp, Bool.false_eq_true, if_false,
                  eq_self_iff_true, if_true] at hm
                exact ih qs _ m hm k
                  (fun j hj hpj => hnot (j + 1) (Nat.succ_lt_succ hj) hpj)
              · simp [matchLoop, hp, hq] at hm

/-- On a successful match, a parameter segment whose name is not
re-bound by any later parameter segment ends up bound to the exact
text of its corresponding path segment. -/
theorem matchLoop_binds (ps : List Seg) :
    ∀ (qs : List Seg) (acc m : List (Seg × Seg)), matchLoop ps qs acc = some m →
    ∀ (i : ℕ) (hp : i < ps.length) (hq : i < qs.length),
      isParamSeg (ps.get ⟨i, hp⟩) = true →
      (∀ (j : ℕ) (hj : j < ps.length), i < j →
          isParamSeg (ps.get ⟨j, hj⟩) = true →
          ¬ paramName (ps.get ⟨j, hj⟩) = paramName (ps.get ⟨i, hp⟩)) →
      getVal (paramName (ps.get ⟨i, hp⟩)) m = some (qs.get ⟨i, hq⟩) := by
  induction ps with
  | nil => intro qs acc m _ i hp; exact absurd hp (Nat.not_lt_zero i)
  | cons p ps ih =>
      intro qs acc m hm i hp hq hparam hlater
      cases qs with
      | nil => simp [matchLoop] at hm
      | cons q qs =>
          cases i with
          | zero =>
              have hp0 : isParamSeg p = true := hparam
              simp only [matchLoop, hp0, if_true] at hm
              have hpres := matchLoop_getVal_preserved ps qs _ m hm (paramName p)
                (fun j hj hpj => hlater (j + 1) (Nat.succ_lt_succ hj) (Nat.succ_pos j) hpj)
              show getVal (paramName p) m = some q
              rw [hpres]
              exact getVal_upsert_same (paramName p) q acc
          | succ i' =>
              cases hp0 : isParamSeg p with
              | true =>
                  simp only [matchLoop, hp0, if_true] at hm
                  exact ih qs _ m hm i' (Nat.lt_of_succ_lt_succ hp)
                    (Nat.lt_of_succ_lt_succ hq) hparam
                    (fun j hj hij hpj =>
                      hlater (j + 1) (Nat.succ_lt_succ hj) (Nat.succ_lt_succ hij) hpj)
              | false =>
                  by_cases hpq : p = q
                  · subst hpq
                    simp only [matchLoop, hp0, Bool.false_eq_true, if_false,
                      eq_self_iff_true, if_true] at hm
                    exact ih qs _ m hm i' (Nat.lt_of_succ_lt_succ hp)
                      (Nat.lt_of_succ_lt_succ hq) hparam
                      (fun j hj hij hpj =>
                        hlater (j + 1) (Nat.succ_lt_succ hj) (Nat.succ_lt_succ hij) hpj)
                  · simp [matchLoop, hp0, hpq] at hm

/-- C4 counterexample: on pattern `/:id` and path `/` the pkg/zen
matcher succeeds and binds `id` to the empty segment — a parameter
segment does match an empty path segment (there is no non-emptiness
check in `src/pkg/zen/router.go`). -/
theorem C4_counterexample :
    matchPath "/:id" "/" = some [(['i', 'd'], [])]
    ∧ ([] : Seg).length = 0 := by
  refine ⟨by decide, rfl⟩

/-- C4 amended: the pkg/zen matcher returns a match exactly when the
segment counts are equal and every non-parameter pattern segment is
byte-for-byte equal to the corresponding path segment; on a match,
every pattern segment beginning with `:` whose name is not re-bound by
a later parameter segment binds its name to the exact text of the
corresponding path segment — including the empty segment (the
non-emptiness restriction of the claim does not hold; the hardened
root matcher additionally validates bound parameter values). -/
theorem C4_amended_matcher (pattern path : String) :
    ((matchPath pattern path).isSome ↔
      ((segsOf pattern).length = (segsOf path).length ∧
        ∀ (i : ℕ) (hp : i < (segsOf pattern).length) (hq : i < (segsOf path).length),
          isParamSeg ((segsOf pattern).get ⟨i, hp⟩) = false →
          (segsOf pattern).get ⟨i, hp⟩ = (segsOf path).get ⟨i, hq⟩))
    ∧ (∀ m, matchPath pattern path = some m →
        ∀ (i : ℕ) (hp : i < (segsOf pattern).length) (hq : i < (segsOf path).length),
          isParamSeg ((segsOf pattern).get ⟨i, hp⟩) = true →
          (∀ (j : ℕ) (hj : j < (segsOf pattern).length), i < j →
              isParamSeg ((segsOf pattern).get ⟨j, hj⟩) = true →
              ¬ paramName ((segsOf pattern).get ⟨j, hj⟩)
                  = paramName ((segsOf pattern).get ⟨i, hp⟩)) →
          getVal (paramName ((segsOf pattern).get ⟨i, hp⟩)) m
            = some ((segsOf path).get ⟨i, hq⟩)) := by
  constructor
  · unfold matchPath
    by_cases hlen : (segsOf pattern).length = (segsOf path).length
    · rw [if_pos hlen, matchLoop_isSome_iff, List.forall₂_iff_get]
      constructor
      · rintro ⟨-, h⟩
        refine ⟨hlen, fun i hp hq hnp => ?_⟩
        rcases h i hp hq with hpar | heq
        · rw [hnp] at hpar; exact absurd hpar (by simp)
        · exact heq
      · rintro ⟨-, h⟩
        refine ⟨hlen, fun i hp hq => ?_⟩
        cases hnp : isParamSeg ((segsOf pattern).get ⟨i, hp⟩) with
        | true => exact Or.inl rfl
        | false => exact Or.inr (h i hp hq hnp)
    · rw [if_neg hlen]
      simp [hlen]
  · intro m hm
    unfold matchPath at hm
    by_cases hlen : (segsOf pattern).length = (segsOf path).length
    · rw [if_pos hlen] at hm
      exact matchLoop_binds (segsOf pattern) (segsOf path) [] m hm
    · rw [if_neg hlen] at hm
      exact absurd hm (by simp)

/-- Witness for `C4_amended_matcher` on pattern `/users/:id` and path
`/users/123`. -/
theorem C4_amended_matcher_witness :
    matchPath "/users/:id" "/users/123" = some [(['i', 'd'], ['1', '2', '3'])]
    ∧ getVal (paramName ((segsOf "/users/:id").get ⟨1, by decide⟩))
        [(['i', 'd'], ['1', '2', '3'])]
      = some ((segsOf "/users/123").get ⟨1, by decide⟩) :=
  ⟨by decide,
    (C4_amended_matcher "/users/:id" "/users/123").2
      [(['i', 'd'], ['1', '2', '3'])] (by decide) 1 (by decide) (by decide) (by decide)
      (fun j hj hij _ => by
        exfalso
        have h2 : (segsOf "/users/:id").length = 2 := by decide
        rw [h2] at hj
        omega)⟩

/-! ## C8 — sliding-window rate limiting -/

set_option maxRecDepth 40000 in
/-- C8 counterexample: the rollover seed is computed in binary64, not
as an exact floor.  With the default one-minute window
(60 000 000 000 ns), previous count 50 at start 0, and a call at
85 200 000 000 ns, the overlap is 34 800 000 000 ns and the exact
weight is `0.58`; the claim's formula seeds
`⌊50 · 34.8e9 / 60e9⌋ + 1 = 30`, but binary64 rounds `0.58` down, the
product `50 × fl(0.58)` evaluates to `28.999…`, truncation gives 28,
and the code seeds 29 — so with `limit + burst = 30` the code allows
the call that the claim's formula would deny. -/
theorem C8_counterexample :
    isSlidingWindowAllowed { limit := 29, burst := 1, window := 60000000000 }
        (some { count := 50, start := 0 }) 85200000000
      = (true, { count := 29, start := 85200000000 })
    ∧ (⌊((50 : ℚ) * 34800000000) / 60000000000⌋ + 1 : Int) = 30
    ∧ ¬ ((30 : Int) < 29 + 1) := by
  refine ⟨by decide, ?_, by decide⟩
  have h : ((50 : ℚ) * 34800000000) / 60000000000 = ((29 : Int) : ℚ) := by norm_num
  rw [h, Int.floor_intCast]
  norm_num

/-- C8 amended: the sliding-window strategy.  On rollover
(`now - start > window`) the new count is seeded as the *binary64*
computation `int(float64(count) · (float64(overlap)/float64(window)))`
plus one — with the overlap clamped below at zero — which can differ
from the exact `⌊count · overlap / window⌋` by the float rounding (see
the counterexample); the call is allowed exactly when the seeded count
is under `limit + burst`.  Within a still-open window the strategy
behaves exactly like the fixed-window strategy. -/
theorem C8_sliding_window (cfg : RLConfig) (e : WindowEntry) (now : Int) :
    isSlidingWindowAllowed cfg none now = (true, { count := 1, start := now })
    ∧ (cfg.window < now - e.start →
        (isSlidingWindowAllowed cfg (some e) now).2
          = { count :=
                goFloat64Seed e.count
                  (max 0 (cfg.window - ((now - e.start) - cfg.window))) cfg.window + 1,
              start := now }
        ∧ ((isSlidingWindowAllowed cfg (some e) now).1 = true ↔
            (isSlidingWindowAllowed cfg (some e) now).2.count < cfg.limit + cfg.burst))
    ∧ (¬ cfg.window < now - e.start →
        isSlidingWindowAllowed cfg (some e) now = isIPBasedAllowed cfg (some e) now) := by
  refine ⟨rfl, ?_, ?_⟩
  · intro h
    have hmax : (if cfg.window - (now - e.start - cfg.window) < 0 then 0
          else cfg.window - (now - e.start - cfg.window))
        = max 0 (cfg.window - (now - e.start - cfg.window)) := by
      rcases lt_or_le (cfg.window - (now - e.start - cfg.window)) 0 with h0 | h0
      · simp [h0, max_eq_left (le_of_lt h0)]
      · simp [not_lt.mpr h0, max_eq_right h0]
    constructor
    · simp only [isSlidingWindowAllowed, if_pos h, hmax]
    · simp only [isSlidingWindowAllowed, if_pos h, hmax, decide_eq_true_eq]
  · intro h
    simp only [isSlidingWindowAllowed, isIPBasedAllowed, if_neg h]

/-- Witness for `C8_sliding_window`: the rollover case at the
counterexample's input, and agreement with the fixed-window strategy
within a still-open window. -/
theorem C8_sliding_window_witness :
    ((60000000000 : Int) < 85200000000 - 0)
    ∧ (isSlidingWindowAllowed { limit := 29, burst := 1, window := 60000000000 }
          (some { count := 50, start := 0 }) 85200000000).2
        = { count :=
              goFloat64Seed 50
                (max 0 ((60000000000 : Int) - ((85200000000 - 0) - 60000000000)))
                60000000000 + 1,
            start := 85200000000 }
    ∧ (¬ (10 : Int) < 5 - 0)
    ∧ isSlidingWindowAllowed { limit := 2, burst := 1, window := 10 }
          (some { count := 1, start := 0 }) 5
        = isIPBasedAllowed { limit := 2, burst := 1, window := 10 }
          (some { count := 1, start := 0 }) 5 :=
  ⟨by decide,
    ((C8_sliding_window { limit := 29, burst := 1, window := 60000000000 }
        { count := 50, start := 0 } 85200000000).2.1 (by decide)).1,
    by decide,
    (C8_sliding_window { limit := 2, burst := 1, window := 10 }
        { count := 1, start := 0 } 5).2.2 (by decide)⟩

/-! ## C5 — not-found handling when no pattern matches -/

/-- C5 divergence, evaluated at the failing inputs.  pkg/zen
`Router.handle`: with one global middleware that writes nothing and no
matching route, no status and no body are ever written (recorded
status stays 0, the wire default 200) because `Writer.Status()`
returns 200 — never 0 — when unset, so the `Status() == 0` guard never
fires.  Root `Router.handle`: `writeNotFound` runs *before* the global
middleware, so the 404 occupies the write-once slot and a status
written by a global handler (here 500) is never observed. -/
theorem C5_code_divergence :
    (zenHandle [] [[]] "/x" (stInit zenWriterInit)).writer.statusCode = 0
    ∧ (zenHandle [] [[]] "/x" (stInit zenWriterInit)).body = []
    ∧ zenStatus (zenHandle [] [[]] "/x" (stInit zenWriterInit)).writer = 200
    ∧ (rootHandle [] [[Act.writeStatus 500]] "/x" (stInit rootWriterInit)).writer.statusCode
        = 404
    ∧ (rootHandle [] [] "/x" (stInit rootWriterInit)).writer.statusCode = 404
    ∧ (rootHandle [] [] "/x" (stInit rootWriterInit)).body = ["404 NOT FOUND"] := by
  decide

/-! ## C6 — unmatched OPTIONS requests -/

/-- C6 divergence, evaluated at the failing inputs.  pkg/zen
`Router.handleOptions`: with zero global middleware (and zero OPTIONS
routes) nothing is written at all — the `Status() == 0` guard is dead
since `Status()` returns 200 when unset — so the claim's "in
particular" case yields the wire default 200, not 204.  Root
`Router.handleOptions`: the zero-global-middleware branch does write
204 directly, but with one global middleware that writes nothing the
same dead guard leaves the status unwritten, so 204 is not the status
"whenever no handler wrote". -/
theorem C6_code_divergence :
    (zenHandleOptions [] (stInit zenWriterInit)).writer.statusCode = 0
    ∧ zenStatus (zenHandleOptions [] (stInit zenWriterInit)).writer = 200
    ∧ (rootHandleOptions [] [[]] "/x" (stInit rootWriterInit)).writer.statusCode = 0
    ∧ (rootHandleOptions [] [] "/x" (stInit rootWriterInit)).writer.statusCode = 204 := by
  decide

/-! ## C9 — group creation does not copy the parent's middleware -/

/-- C9 divergence, evaluated at the failing input.  The root
`RouterGroup.GroupRoutes` allocates the child's middleware slice with
length 0 (`make([]HandlerFunc, 0, len(parent))`), so the subsequent
`copy` copies zero elements: a parent with middleware [7] produces a
child with an empty middleware list, contradicting both the claim and
the function's own doc comment ("The new group inherits middleware
from its parent group").  The pkg/zen snapshot allocates with length
`len(parent)` and does copy. -/
theorem C9_code_divergence :
    rootGroupRoutes { prefixStr := "/api", middlewares := [7] } "/v1"
      = { prefixStr := "/api/v1", middlewares := [] }
    ∧ zenGroupRoutes { prefixStr := "/api", middlewares := [7] } "/v1"
      = { prefixStr := "/api/v1", middlewares := [7] }
    ∧ (groupApply { prefixStr := "/api", middlewares := [7] } [8]).middlewares = [7, 8] := by
  refine ⟨?_, ?_, by decide⟩ <;> rfl

/-! ## C10 — auth failure must not fall through to the handler -/

/-- C10 divergence, evaluated at the failing input.  For a request
with no Authorization header, `getToken` fails with the missing-token
error and the auth middleware runs the default unauthorized handler
(writing 401) and returns without calling `Next` or `Quit` — but the
driving loop advances anyway, so the protected route handler (mark 99)
still executes, and under the pkg/zen writer its own status write even
replaces the recorded 401 with 200. -/
theorem C10_code_divergence :
    getToken { path := "/p", headers := [], query := [], cookies := [] } defaultAuthCfg
      = Except.error AuthErr.missingToken
    ∧ authHandlerActs defaultAuthCfg
        { path := "/p", headers := [], query := [], cookies := [] } (fun _ => true)
      = unauthorizedActs
    ∧ (runChain zenWriteHeader
        [authHandlerActs defaultAuthCfg
          { path := "/p", headers := [], query := [], cookies := [] } (fun _ => true),
         [Act.mark 99, Act.writeStatus 200]]
        (stInit zenWriterInit)).log = [99]
    ∧ (runChain zenWriteHeader
        [authHandlerActs defaultAuthCfg
          { path := "/p", headers := [], query := [], cookies := [] } (fun _ => true),
         [Act.mark 99, Act.writeStatus 200]]
        (stInit zenWriterInit)).writer.statusCode = 200 := by
  refine ⟨rfl, rfl, by decide, by decide⟩

end Zen
